import Mathlib

/-!
Verification development for the nanoprin deformable-mesh simulation.

The definitions below are a shallow embedding of `src/js/physics.js`
(class `PhysicsEngine`) and of the triangle-warp guard of
`src/js/storage.js` (`Renderer.drawTexturedTriangle`).  JavaScript numbers
are idealized as real numbers; the randomized per-instance parameters are
injected explicitly (the raw `Math.random()` samples become function
arguments), following the spec's design note on an injectable random
source.  A second, small model (`RF`) of IEEE special values
(NaN/±infinity) is used to settle the degenerate-geometry claim, since
that claim is precisely about non-finite value propagation.
-/

open scoped Classical

noncomputable section

namespace Nanoprin

/-- A 2D value `{x, y}` as used for forces, positions and velocities. -/
structure Vec2 where
  x : ℝ
  y : ℝ


/-- An entry of `this.forceHistory`: `{ x, y, patternId }`. -/
structure ForceEntry where
  x : ℝ
  y : ℝ
  patternId : Option String


/-- A press point record `{ x, y, depth, targetDepth }` stored in `this.pressPoints`. -/
structure PressPoint where
  x : ℝ
  y : ℝ
  depth : ℝ
  targetDepth : ℝ


/-- The region box `{x, y, width, height}` passed to `addRegion` by the caller. -/
structure RegionBox where
  x : ℝ
  y : ℝ
  width : ℝ
  height : ℝ


/-- A region as stored in `this.regions`: the spread of the input box plus
physics state and per-region constants (see `PhysicsEngine.addRegion`). -/
structure Region where
  x : ℝ
  y : ℝ
  width : ℝ
  height : ℝ
  position : Vec2
  velocity : Vec2
  stiffness : ℝ
  damping : ℝ
  delayFrames : ℕ
  phaseOffset : ℝ

/-- A vertex of the grid: `{ baseX, baseY, dx, dy }`. -/
structure Vertex where
  baseX : ℝ
  baseY : ℝ
  dx : ℝ
  dy : ℝ

/-- A displacement sample `{ x, y, dx, dy, influence }` returned by
`calculateVertexDisplacements`. -/
structure Sample where
  x : ℝ
  y : ℝ
  dx : ℝ
  dy : ℝ
  influence : ℝ

/-- The mutable state of a `PhysicsEngine` instance (constructor fields). -/
structure EngineState where
  baseStiffness : ℝ
  baseDamping : ℝ
  mass : ℝ
  sensitivity : ℝ
  maxDisplacement : ℝ
  posThreshold : ℝ
  velThreshold : ℝ
  gridDensity : ℕ
  gridSizeX : ℕ
  gridSizeY : ℕ
  aspectRatio : ℝ
  vertices : List Vertex
  regions : List Region
  forceHistory : List ForceEntry
  historyLength : ℕ
  pressPoints : List (ℕ × PressPoint)
  pressSpeed : ℝ
  releaseSpeed : ℝ

/-- Source `initVertices`: the row-major grid of `(gridSizeX+1) × (gridSizeY+1)`
vertices with normalized base coordinates. -/
def initVertices (gx gy : ℕ) : List Vertex :=
  (List.range (gy + 1)).flatMap fun y =>
    (List.range (gx + 1)).map fun x =>
      { baseX := (x : ℝ) / (gx : ℝ), baseY := (y : ℝ) / (gy : ℝ), dx := 0, dy := 0 }

/-- The state built by the `PhysicsEngine` constructor. -/
def initialState : EngineState where
  baseStiffness := 0.08
  baseDamping := 0.92
  mass := 1.0
  sensitivity := 4.0
  maxDisplacement := 25
  posThreshold := 0.3
  velThreshold := 0.05
  gridDensity := 10
  gridSizeX := 10
  gridSizeY := 10
  aspectRatio := 1
  vertices := initVertices 10 10
  regions := []
  forceHistory := []
  historyLength := 8
  pressPoints := []
  pressSpeed := 0.15
  releaseSpeed := 0.08

/-- Source `this.clamp(value, min, max) = Math.max(min, Math.min(max, value))`. -/
def clamp (value lo hi : ℝ) : ℝ := max lo (min hi value)

/-- Source `PhysicsEngine.addRegion`.  The three `Math.random()` samples drawn by the
source are injected as the arguments `randStiff`, `randDamp`, `randDelay`
(each drawn from `[0,1)` at runtime). -/
def addRegion (s : EngineState) (rIn : RegionBox) (randStiff randDamp randDelay : ℝ) :
    EngineState :=
  let index := s.regions.length
  let stiffnessVariation := 0.7 + randStiff * 0.6
  let dampingVariation := 0.95 + randDamp * 0.1
  let delayFrames := index * 3 + (⌊randDelay * 2⌋).toNat
  { s with regions := s.regions ++ [{
      x := rIn.x, y := rIn.y, width := rIn.width, height := rIn.height
      position := ⟨0, 0⟩
      velocity := ⟨0, 0⟩
      stiffness := s.baseStiffness * stiffnessVariation
      damping := s.baseDamping * dampingVariation
      delayFrames := delayFrames
      phaseOffset := (index : ℝ) * Real.pi * 0.3 }] }

/-- Source `PhysicsEngine.calculateRegionInfluence` (idealized real semantics). -/
def calculateRegionInfluence (px py : ℝ) (r : Region) : ℝ :=
  let cx := r.x + r.width / 2
  let cy := r.y + r.height / 2
  let rx := (px - cx) / (r.width / 2)
  let ry := (py - cy) / (r.height / 2)
  let ellipseDist := Real.sqrt (rx * rx + ry * ry)
  let fadeStart := (0.6 : ℝ)
  let fadeEnd := (1.5 : ℝ)
  let influence :=
    if ellipseDist < fadeStart then
      Real.exp (-ellipseDist * ellipseDist * 0.5)
    else
      let t := (ellipseDist - fadeStart) / (fadeEnd - fadeStart)
      let smoothT := max 0 (1 - t * t * t)
      let centerValue := Real.exp (-fadeStart * fadeStart * 0.5)
      centerValue * smoothT
  let verticalBias := 1.0 + (cy - py) * 0.5
  influence * max 0.5 (min 1.5 verticalBias)

/-- The normalized ellipse distance `d` computed inside
`calculateRegionInfluence`. -/
def ellipseDistOf (px py : ℝ) (r : Region) : ℝ :=
  let cx := r.x + r.width / 2
  let cy := r.y + r.height / 2
  Real.sqrt (((px - cx) / (r.width / 2)) * ((px - cx) / (r.width / 2)) +
    ((py - cy) / (r.height / 2)) * ((py - cy) / (r.height / 2)))

/-- The two-piece radial falloff of `calculateRegionInfluence` as a function
of the normalized ellipse distance alone. -/
def influenceCore (d : ℝ) : ℝ :=
  if d < 0.6 then Real.exp (-d * d * 0.5)
  else Real.exp (-(0.6 : ℝ) * 0.6 * 0.5) *
    max 0 (1 - ((d - 0.6) / (1.5 - 0.6)) * ((d - 0.6) / (1.5 - 0.6)) * ((d - 0.6) / (1.5 - 0.6)))

/-- The clamped vertical bias factor of `calculateRegionInfluence`. -/
def verticalBiasOf (py : ℝ) (r : Region) : ℝ :=
  max 0.5 (min 1.5 (1.0 + (r.y + r.height / 2 - py) * 0.5))

/-- One step of a press point's depth easing (the body of the loop in
`updatePressState`). -/
def stepPressPoint (s : EngineState) (p : PressPoint) : PressPoint :=
  if p.targetDepth > 0 then
    { p with depth := p.depth + (p.targetDepth - p.depth) * s.pressSpeed }
  else
    { p with depth := p.depth + (p.targetDepth - p.depth) * s.releaseSpeed }

/-- Source `PhysicsEngine.updatePressState`: ease every point, then delete the
points that were in the releasing branch with `|depth| < 0.001`. -/
def updatePressState (s : EngineState) : EngineState :=
  let stepped := s.pressPoints.map fun kp => (kp.1, stepPressPoint s kp.2)
  let kept := stepped.filter fun kp => !(decide (kp.2.targetDepth ≤ 0 ∧ |kp.2.depth| < 0.001))
  { s with pressPoints := kept }

/-- The updated force history of `update`: prepend the scaled force and pop
the last entry when the length exceeds `historyLength`. -/
def newHistory (s : EngineState) (forceX forceY : ℝ) (patternId : Option String) :
    List ForceEntry :=
  let hist1 : List ForceEntry := ⟨forceX, forceY, patternId⟩ :: s.forceHistory
  if hist1.length > s.historyLength then hist1.dropLast else hist1

/-- The delayed-force lookup of `update`:
`forceHistory[min(delayFrames, length-1)] || {x:0, y:0, patternId:null}`. -/
def delayedForceFor (hist : List ForceEntry) (r : Region) : ForceEntry :=
  hist.getD (min r.delayFrames (hist.length - 1)) ⟨0, 0, none⟩

/-- The knead-mirroring of `update`: for the two knead pattern ids, regions
at odd index get the X component negated. -/
def appliedForceFor (i : ℕ) (e : ForceEntry) : Vec2 :=
  if (e.patternId = some "kneadLeft" ∨ e.patternId = some "kneadRight") ∧ i % 2 = 1 then
    ⟨-e.x, e.y⟩
  else ⟨e.x, e.y⟩

/-- The spring/damping/semi-implicit-Euler/clamp/snap sequence shared by
`update` (lines 221–253) and `applyForceAtPosition` (lines 459–491). -/
def integrateRegion (s : EngineState) (applied : Vec2) (r : Region) : Region :=
  let springForceX := -r.stiffness * r.position.x
  let springForceY := -r.stiffness * r.position.y
  let dampingForceX := -r.damping * r.velocity.x
  let dampingForceY := -r.damping * r.velocity.y
  let ax := (springForceX + dampingForceX + applied.x) / s.mass
  let ay := (springForceY + dampingForceY + applied.y) / s.mass
  let vx := r.velocity.x + ax
  let vy := r.velocity.y + ay
  let px := clamp (r.position.x + vx) (-s.maxDisplacement) s.maxDisplacement
  let py := clamp (r.position.y + vy) (-s.maxDisplacement) s.maxDisplacement
  let snapX : ℝ × ℝ := if |px| < s.posThreshold ∧ |vx| < s.velThreshold then (0, 0) else (px, vx)
  let snapY : ℝ × ℝ := if |py| < s.posThreshold ∧ |vy| < s.velThreshold then (0, 0) else (py, vy)
  { r with position := ⟨snapX.1, snapY.1⟩, velocity := ⟨snapX.2, snapY.2⟩ }

/-- The indexed for-loop over `this.regions` in `update`, carrying the loop
index `i` used for knead parity. -/
def updateRegionsFrom (s : EngineState) (hist : List ForceEntry) :
    ℕ → List Region → List Region
  | _, [] => []
  | i, r :: rest =>
      integrateRegion s (appliedForceFor i (delayedForceFor hist r)) r ::
        updateRegionsFrom s hist (i + 1) rest

/-- The state transition of `PhysicsEngine.update` (everything except the
returned displacement array). -/
def updateState (s : EngineState) (force : Vec2) (patternId : Option String) : EngineState :=
  let s1 := updatePressState s
  let hist := newHistory s1 (force.x * s1.sensitivity) (force.y * s1.sensitivity) patternId
  { s1 with forceHistory := hist, regions := updateRegionsFrom s1 hist 0 s1.regions }

/-- The per-press-point contribution to one vertex's displacement inside
`calculateVertexDisplacements` (lines 281–322). -/
def pressContribution (s : EngineState) (v : Vertex) (acc : ℝ × ℝ) (point : PressPoint) :
    ℝ × ℝ :=
  if point.depth > 0.001 then
    let regionInfluence := s.regions.foldl
      (fun m r => max m (calculateRegionInfluence v.baseX v.baseY r)) 0
    if regionInfluence < 0.01 then acc
    else
      let dx := v.baseX - point.x
      let dy := v.baseY - point.y
      let dist := Real.sqrt (dx * dx + dy * dy)
      let radius := (0.15 : ℝ)
      let pressInfluence := Real.exp (-(dist * dist) / (2 * radius * radius))
      if pressInfluence > 0.01 then
        let pressDisplacement := point.depth * 15
        let combinedInfluence := pressInfluence * regionInfluence
        let acc' :=
          if dist > 0.001 then
            (acc.1 + (dx / dist) * pressDisplacement * combinedInfluence * 0.5,
             acc.2 + (dy / dist) * pressDisplacement * combinedInfluence * 0.3)
          else acc
        let centerInfluence := Real.exp (-(dist * dist) / (2 * (radius * 0.5) * (radius * 0.5)))
        (acc'.1, acc'.2 + pressDisplacement * centerInfluence * regionInfluence * 0.3)
      else acc
  else acc

/-- The displacement sample of one vertex (body of the outer loop of
`calculateVertexDisplacements`). -/
def sampleAt (s : EngineState) (v : Vertex) : Sample :=
  let threshold := (0.3 : ℝ)
  let acc0 := s.regions.foldl
    (fun (acc : ℝ × ℝ × ℝ) r =>
      let influence := calculateRegionInfluence v.baseX v.baseY r
      if influence > 0.001 then
        (acc.1 + r.position.x * influence, acc.2.1 + r.position.y * influence,
         acc.2.2 + influence)
      else acc)
    (0, 0, 0)
  let acc1 := s.pressPoints.foldl (fun acc kp => pressContribution s v acc kp.2)
    (acc0.1, acc0.2.1)
  let totalDx := if |acc1.1| < threshold then 0 else acc1.1
  let totalDy := if |acc1.2| < threshold then 0 else acc1.2
  { x := v.baseX, y := v.baseY, dx := totalDx, dy := totalDy, influence := acc0.2.2 }

/-- Source `PhysicsEngine.calculateVertexDisplacements`. -/
def calculateVertexDisplacements (s : EngineState) : List Sample :=
  s.vertices.map (sampleAt s)

/-- Source `PhysicsEngine.update`: state transition plus the returned displacement
array. -/
def update (s : EngineState) (force : Vec2) (patternId : Option String) :
    EngineState × List Sample :=
  let s' := updateState s force patternId
  (s', calculateVertexDisplacements s')

/-- Source `PhysicsEngine.applyForceAtPosition`.  Each region is integrated with
`force × influence(pos, region)` only when that influence exceeds 0.01;
otherwise the region is left untouched.  (The source also computes an
unused `dist` of the pointer to the region center; it has no effect and is
omitted.) -/
def applyForceAtPosition (s : EngineState) (force : Vec2) (posX posY : ℝ) :
    EngineState × List Sample :=
  let s1 := updatePressState s
  let forceX := force.x * s1.sensitivity
  let forceY := force.y * s1.sensitivity
  let regions := s1.regions.map fun r =>
    let influence := calculateRegionInfluence posX posY r
    if influence > 0.01 then
      integrateRegion s1 ⟨forceX * influence, forceY * influence⟩ r
    else r
  let s2 := { s1 with regions := regions }
  (s2, calculateVertexDisplacements s2)

/-- Source `Map.prototype.set` on the association-list model of `this.pressPoints`:
replace in place when the key exists, append otherwise. -/
def mapSet (m : List (ℕ × PressPoint)) (k : ℕ) (v : PressPoint) : List (ℕ × PressPoint) :=
  if m.any fun kp => kp.1 == k then
    m.map fun kp => if kp.1 = k then (k, v) else kp
  else m ++ [(k, v)]

/-- Source `Map.prototype.get` on the association-list model. -/
def lookupPress (m : List (ℕ × PressPoint)) (k : ℕ) : Option PressPoint :=
  (m.find? fun kp => kp.1 == k).map fun kp => kp.2

/-- Source `PhysicsEngine.startPress`. -/
def startPress (s : EngineState) (id : ℕ) (x y : ℝ) : EngineState :=
  { s with pressPoints := mapSet s.pressPoints id { x := x, y := y, depth := 0, targetDepth := 1.0 } }

/-- The per-region release impulse of `endPress`; `ro` is the random angular
offset `(Math.random() - 0.5) * 0.3` of that region. -/
def endPressRegion (point : PressPoint) (releaseMagnitude ro : ℝ) (r : Region) : Region :=
  let cx := r.x + r.width / 2
  let cy := r.y + r.height / 2
  let dx := point.x - cx
  let dy := point.y - cy
  let dist := Real.sqrt (dx * dx + dy * dy)
  let influence := max 0 (1 - dist * 2)
  if influence > 0 then
    let angle := Complex.arg ⟨cx - point.x, cy - point.y⟩
    let vx := r.velocity.x + Real.cos (angle + ro) * releaseMagnitude * influence * 0.5
    let vy := r.velocity.y + Real.sin (angle + ro) * releaseMagnitude * influence * 0.5
      - releaseMagnitude * influence * 0.8
    { r with velocity := ⟨vx, vy⟩ }
  else r

/-- Source `PhysicsEngine.endPress`.  The per-region `Math.random()` samples are
injected as `rands`. -/
def endPress (s : EngineState) (id : ℕ) (rands : ℕ → ℝ) : EngineState :=
  match lookupPress s.pressPoints id with
  | none => s
  | some point =>
      let releaseMagnitude := point.depth * 8
      { s with
        regions := s.regions.mapIdx fun i r =>
          endPressRegion point releaseMagnitude ((rands i - 0.5) * 0.3) r,
        pressPoints := s.pressPoints.map fun kp =>
          if kp.1 = id then (kp.1, { kp.2 with targetDepth := 0 }) else kp }

/-- Source `PhysicsEngine.reset`: zero region state and vertex displacements, clear
the force history; regions themselves are kept. -/
def reset (s : EngineState) : EngineState :=
  { s with
    regions := s.regions.map fun r => { r with position := ⟨0, 0⟩, velocity := ⟨0, 0⟩ },
    vertices := s.vertices.map fun v => { v with dx := 0, dy := 0 },
    forceHistory := [] }

/-- Iterated zero-force updates (`update({x:0,y:0}, pids n)` repeated). -/
def stepZeroN (s : EngineState) (pids : ℕ → Option String) : ℕ → EngineState
  | 0 => s
  | n + 1 => updateState (stepZeroN s pids n) ⟨0, 0⟩ (pids n)

/-- A small displaced region far away from the pointer position (10, 10)
used to exercise the influence gate of `applyForceAtPosition`. -/
def farRegion : Region :=
  { x := 0, y := 0, width := 1/5, height := 1/5, position := ⟨5, 5⟩, velocity := ⟨0, 0⟩,
    stiffness := 2/25, damping := 23/25, delayFrames := 0, phaseOffset := 0 }

/-- An engine holding only `farRegion`. -/
def farState : EngineState := { initialState with regions := [farRegion] }

/-- A throwaway `Region` value used as the default of `List.getD` lookups in
statements (never actually selected under the stated bounds). -/
def defaultRegion : Region :=
  { x := 0, y := 0, width := 0, height := 0, position := ⟨0, 0⟩, velocity := ⟨0, 0⟩,
    stiffness := 0, damping := 0, delayFrames := 0, phaseOffset := 0 }

/-- The all-zero invariant used for the reset/zero-force claim: every
region at rest, only zero forces in the history, no press points, and a
nonnegative clamp bound. -/
def zeroInv (s : EngineState) : Prop :=
  (∀ r ∈ s.regions, r.position = ⟨0, 0⟩ ∧ r.velocity = ⟨0, 0⟩) ∧
  (∀ e ∈ s.forceHistory, e.x = 0 ∧ e.y = 0) ∧
  s.pressPoints = [] ∧ 0 ≤ s.maxDisplacement

/-- The affine transform computed by `Renderer.drawTexturedTriangle` in
`src/js/storage.js`; `none` models the early `return` (the triangle is
skipped, nothing is drawn) when `|denom| < 0.001`. -/
def drawTexturedTriangle (sx0 sy0 sx1 sy1 sx2 sy2 dx0 dy0 dx1 dy1 dx2 dy2 : ℝ) :
    Option (ℝ × ℝ × ℝ × ℝ × ℝ × ℝ) :=
  let denom := (sx0 - sx2) * (sy1 - sy2) - (sx1 - sx2) * (sy0 - sy2)
  if |denom| < 0.001 then none
  else
    let m11 := ((dx0 - dx2) * (sy1 - sy2) - (dx1 - dx2) * (sy0 - sy2)) / denom
    let m12 := ((dx1 - dx2) * (sx0 - sx2) - (dx0 - dx2) * (sx1 - sx2)) / denom
    let m21 := ((dy0 - dy2) * (sy1 - sy2) - (dy1 - dy2) * (sy0 - sy2)) / denom
    let m22 := ((dy1 - dy2) * (sx0 - sx2) - (dy0 - dy2) * (sx1 - sx2)) / denom
    let m13 := dx2 - m11 * sx2 - m12 * sy2
    let m23 := dy2 - m21 * sx2 - m22 * sy2
    some (m11, m12, m21, m22, m13, m23)

/-- JavaScript number semantics restricted to what the degenerate-geometry
claim needs: a real value, the two infinities, or NaN.  Rounding and
overflow are not modelled (irrelevant here); the special-value propagation
rules follow IEEE 754 / ECMAScript. -/
inductive RF where
  | fin (val : ℝ)
  | pinf
  | ninf
  | nan

namespace RF

/-- IEEE negation. -/
def neg : RF → RF
  | fin a => fin (-a)
  | pinf => ninf
  | ninf => pinf
  | nan => nan

/-- IEEE addition (∞ + -∞ = NaN). -/
def add : RF → RF → RF
  | nan, _ => nan
  | _, nan => nan
  | pinf, ninf => nan
  | ninf, pinf => nan
  | pinf, _ => pinf
  | _, pinf => pinf
  | ninf, _ => ninf
  | _, ninf => ninf
  | fin a, fin b => fin (a + b)

/-- IEEE subtraction (∞ - ∞ = NaN). -/
def sub : RF → RF → RF
  | nan, _ => nan
  | _, nan => nan
  | pinf, pinf => nan
  | ninf, ninf => nan
  | pinf, _ => pinf
  | ninf, _ => ninf
  | fin _, pinf => ninf
  | fin _, ninf => pinf
  | fin a, fin b => fin (a - b)

/-- IEEE multiplication (0 × ∞ = NaN). -/
def mul : RF → RF → RF
  | nan, _ => nan
  | _, nan => nan
  | fin a, fin b => fin (a * b)
  | pinf, pinf => pinf
  | ninf, ninf => pinf
  | pinf, ninf => ninf
  | ninf, pinf => ninf
  | pinf, fin b => if b = 0 then nan else if 0 < b then pinf else ninf
  | fin a, pinf => if a = 0 then nan else if 0 < a then pinf else ninf
  | ninf, fin b => if b = 0 then nan else if 0 < b then ninf else pinf
  | fin a, ninf => if a = 0 then nan else if 0 < a then ninf else pinf

/-- IEEE division (0/0 = NaN, x/0 = ±∞ for x ≠ 0, ∞/∞ = NaN).  Signed
zeros are not modelled: division by zero follows the +0 divisor case,
which is what the source produces (`width / 2` with `width = 0`). -/
def div : RF → RF → RF
  | nan, _ => nan
  | _, nan => nan
  | pinf, pinf => nan
  | pinf, ninf => nan
  | ninf, pinf => nan
  | ninf, ninf => nan
  | fin _, pinf => fin 0
  | fin _, ninf => fin 0
  | pinf, fin b => if b < 0 then ninf else pinf
  | ninf, fin b => if b < 0 then pinf else ninf
  | fin a, fin b =>
      if b = 0 then (if a = 0 then nan else if 0 < a then pinf else ninf)
      else fin (a / b)

/-- Source `Math.sqrt`: NaN for negative or NaN argument. -/
def sqrt : RF → RF
  | nan => nan
  | ninf => nan
  | pinf => pinf
  | fin a => if a < 0 then nan else fin (Real.sqrt a)

/-- Source `Math.exp`. -/
def exp : RF → RF
  | nan => nan
  | pinf => pinf
  | ninf => fin 0
  | fin a => fin (Real.exp a)

/-- Source `Math.abs`. -/
def abs : RF → RF
  | nan => nan
  | pinf => pinf
  | ninf => pinf
  | fin a => fin |a|

/-- The `<` comparison: any comparison with NaN is false. -/
def lt : RF → RF → Prop
  | nan, _ => False
  | _, nan => False
  | pinf, _ => False
  | ninf, pinf => True
  | ninf, fin _ => True
  | ninf, ninf => False
  | fin _, pinf => True
  | fin _, ninf => False
  | fin a, fin b => a < b

/-- Source `Math.max`: NaN if either argument is NaN. -/
def rfMax : RF → RF → RF
  | nan, _ => nan
  | _, nan => nan
  | pinf, _ => pinf
  | _, pinf => pinf
  | ninf, b => b
  | a, ninf => a
  | fin a, fin b => fin (max a b)

/-- Source `Math.min`: NaN if either argument is NaN. -/
def rfMin : RF → RF → RF
  | nan, _ => nan
  | _, nan => nan
  | ninf, _ => ninf
  | _, ninf => ninf
  | pinf, b => b
  | a, pinf => a
  | fin a, fin b => fin (min a b)

end RF

/-- A displacement sample under the IEEE-special-value semantics. -/
structure SampleF where
  x : ℝ
  y : ℝ
  dx : RF
  dy : RF
  influence : RF

/-- Source `calculateRegionInfluence` under the IEEE-special-value semantics.  The
state fields themselves are finite reals; non-finite values arise only
inside the computation (degenerate region extents). -/
def calculateRegionInfluenceF (px py : ℝ) (r : Region) : RF :=
  let cx := (RF.fin r.x).add ((RF.fin r.width).div (RF.fin 2))
  let cy := (RF.fin r.y).add ((RF.fin r.height).div (RF.fin 2))
  let rx := ((RF.fin px).sub cx).div ((RF.fin r.width).div (RF.fin 2))
  let ry := ((RF.fin py).sub cy).div ((RF.fin r.height).div (RF.fin 2))
  let ellipseDist := ((rx.mul rx).add (ry.mul ry)).sqrt
  let influence :=
    if ellipseDist.lt (RF.fin 0.6) then
      ((ellipseDist.neg.mul ellipseDist).mul (RF.fin 0.5)).exp
    else
      let t := (ellipseDist.sub (RF.fin 0.6)).div (RF.fin (1.5 - 0.6))
      let smoothT := (RF.fin 0).rfMax ((RF.fin 1).sub ((t.mul t).mul t))
      let centerValue := RF.fin (Real.exp (-(0.6 : ℝ) * 0.6 * 0.5))
      centerValue.mul smoothT
  let verticalBias := (RF.fin 1).add ((cy.sub (RF.fin py)).mul (RF.fin 0.5))
  influence.mul ((RF.fin 0.5).rfMax ((RF.fin 1.5).rfMin verticalBias))

/-- The per-press-point displacement contribution under the
IEEE-special-value semantics (mirrors `pressContribution`). -/
def pressContributionF (s : EngineState) (v : Vertex) (acc : RF × RF) (point : PressPoint) :
    RF × RF :=
  if (RF.fin 0.001).lt (RF.fin point.depth) then
    let regionInfluence := s.regions.foldl
      (fun m r => m.rfMax (calculateRegionInfluenceF v.baseX v.baseY r)) (RF.fin 0)
    if regionInfluence.lt (RF.fin 0.01) then acc
    else
      let dx := (RF.fin v.baseX).sub (RF.fin point.x)
      let dy := (RF.fin v.baseY).sub (RF.fin point.y)
      let dist := ((dx.mul dx).add (dy.mul dy)).sqrt
      let pressInfluence := (((dist.mul dist).neg).div (RF.fin (2 * 0.15 * 0.15))).exp
      if (RF.fin 0.01).lt pressInfluence then
        let pressDisplacement := (RF.fin point.depth).mul (RF.fin 15)
        let combinedInfluence := pressInfluence.mul regionInfluence
        let acc' :=
          if (RF.fin 0.001).lt dist then
            (acc.1.add ((((dx.div dist).mul pressDisplacement).mul combinedInfluence).mul
              (RF.fin 0.5)),
             acc.2.add ((((dy.div dist).mul pressDisplacement).mul combinedInfluence).mul
              (RF.fin 0.3)))
          else acc
        let centerInfluence :=
          (((dist.mul dist).neg).div (RF.fin (2 * (0.15 * 0.5) * (0.15 * 0.5)))).exp
        (acc'.1, acc'.2.add (((pressDisplacement.mul centerInfluence).mul
          regionInfluence).mul (RF.fin 0.3)))
      else acc
  else acc

/-- One vertex's displacement sample under the IEEE-special-value semantics
(mirrors `sampleAt`). -/
def sampleAtF (s : EngineState) (v : Vertex) : SampleF :=
  let acc0 := s.regions.foldl
    (fun (acc : RF × RF × RF) r =>
      let influence := calculateRegionInfluenceF v.baseX v.baseY r
      if (RF.fin 0.001).lt influence then
        (acc.1.add ((RF.fin r.position.x).mul influence),
         acc.2.1.add ((RF.fin r.position.y).mul influence),
         acc.2.2.add influence)
      else acc)
    (RF.fin 0, RF.fin 0, RF.fin 0)
  let acc1 := s.pressPoints.foldl (fun acc kp => pressContributionF s v acc kp.2)
    (acc0.1, acc0.2.1)
  let totalDx := if acc1.1.abs.lt (RF.fin 0.3) then RF.fin 0 else acc1.1
  let totalDy := if acc1.2.abs.lt (RF.fin 0.3) then RF.fin 0 else acc1.2
  { x := v.baseX, y := v.baseY, dx := totalDx, dy := totalDy, influence := acc0.2.2 }

/-- Source `calculateVertexDisplacements` under the IEEE-special-value semantics. -/
def calculateVertexDisplacementsF (s : EngineState) : List SampleF :=
  s.vertices.map (sampleAtF s)

/-- The concrete engine state exhibiting the degenerate-geometry problem: a
5×5 grid, one region of zero width whose horizontal center line `x = 0`
passes through grid vertices, and one press point of depth 1/2 at the
origin vertex. -/
def degenerateState : EngineState :=
  { initialState with
    gridDensity := 5
    gridSizeX := 5
    gridSizeY := 5
    vertices := initVertices 5 5
    regions := [{
      x := 0, y := 0, width := 0, height := 2/5
      position := ⟨0, 0⟩, velocity := ⟨0, 0⟩
      stiffness := 0.08, damping := 0.92, delayFrames := 0, phaseOffset := 0 }]
    pressPoints := [(0, { x := 0, y := 0, depth := 1/2, targetDepth := 1 })] }

/-! ### Helper lemmas -/

@[simp]
theorem updatePressState_regions (s : EngineState) : (updatePressState s).regions = s.regions :=
  rfl

@[simp]
theorem updatePressState_forceHistory (s : EngineState) :
    (updatePressState s).forceHistory = s.forceHistory := rfl

@[simp]
theorem updatePressState_sensitivity (s : EngineState) :
    (updatePressState s).sensitivity = s.sensitivity := rfl

@[simp]
theorem updatePressState_maxDisplacement (s : EngineState) :
    (updatePressState s).maxDisplacement = s.maxDisplacement := rfl

@[simp]
theorem updatePressState_historyLength (s : EngineState) :
    (updatePressState s).historyLength = s.historyLength := rfl

@[simp]
theorem updateState_maxDisplacement (s : EngineState) (f : Vec2) (pid : Option String) :
    (updateState s f pid).maxDisplacement = s.maxDisplacement := rfl

@[simp]
theorem updateState_pressPoints (s : EngineState) (f : Vec2) (pid : Option String) :
    (updateState s f pid).pressPoints = (updatePressState s).pressPoints := rfl

@[simp]
theorem startPress_pressPoints (s : EngineState) (id : ℕ) (x y : ℝ) :
    (startPress s id x y).pressPoints = mapSet s.pressPoints id ⟨x, y, 0, 1.0⟩ := rfl

theorem find_mapSet_present (m : List (ℕ × PressPoint)) (k : ℕ) (v : PressPoint)
    (h : (m.any fun kp => kp.1 == k) = true) :
    ((m.map fun kp => if kp.1 = k then (k, v) else kp).find? fun kp => kp.1 == k) =
      some (k, v) := by
  induction m with
  | nil => simp at h
  | cons p rest ih =>
      simp only [List.map_cons]
      by_cases hp : p.1 = k
      · rw [if_pos hp, List.find?_cons_of_pos _ (by simp)]
      · rw [if_neg hp, List.find?_cons_of_neg _ (by simpa using hp)]
        refine ih ?_
        rcases List.any_eq_true.1 h with ⟨q, hq, hqk⟩
        rcases List.mem_cons.1 hq with rfl | hq'
        · exact absurd (by simpa using hqk) hp
        · exact List.any_eq_true.2 ⟨q, hq', hqk⟩

theorem find_append_single (m : List (ℕ × PressPoint)) (k : ℕ) (v : PressPoint)
    (hm : ∀ x ∈ m, (x.1 == k) = false) :
    ((m ++ [(k, v)]).find? fun kp => kp.1 == k) = some (k, v) := by
  induction m with
  | nil => simp [List.find?]
  | cons p rest ih =>
      rw [List.cons_append, List.find?_cons_of_neg _ (by simp [hm p (by simp)])]
      exact ih fun x hx => hm x (List.mem_cons_of_mem _ hx)

theorem lookupPress_mapSet_self (m : List (ℕ × PressPoint)) (k : ℕ) (v : PressPoint) :
    lookupPress (mapSet m k v) k = some v := by
  unfold mapSet lookupPress
  by_cases h : (m.any fun kp => kp.1 == k) = true
  · rw [if_pos h, find_mapSet_present m k v h]
    rfl
  · have hm : ∀ x ∈ m, (x.1 == k) = false := by
      intro x hx
      by_contra hbad
      exact h (List.any_eq_true.2 ⟨x, hx, by simpa using hbad⟩)
    rw [if_neg h, find_append_single m k v hm]
    rfl

theorem find_map_replace_ne (m : List (ℕ × PressPoint)) (k id : ℕ) (v : PressPoint)
    (h : k ≠ id) :
    ((m.map fun kp => if kp.1 = id then (id, v) else kp).find? fun kp => kp.1 == k) =
      (m.find? fun kp => kp.1 == k) := by
  induction m with
  | nil => rfl
  | cons p rest ih =>
      simp only [List.map_cons]
      by_cases hpk : p.1 = id
      · rw [if_pos hpk,
          List.find?_cons_of_neg _ (by simpa using fun hh : id = k => h hh.symm),
          List.find?_cons_of_neg _ (by rw [hpk]; simpa using fun hh : id = k => h hh.symm)]
        exact ih
      · rw [if_neg hpk]
        by_cases hk : p.1 = k
        · rw [List.find?_cons_of_pos _ (by simpa using hk),
            List.find?_cons_of_pos _ (by simpa using hk)]
        · rw [List.find?_cons_of_neg _ (by simpa using hk),
            List.find?_cons_of_neg _ (by simpa using hk)]
          exact ih

theorem find_append_single_ne (m : List (ℕ × PressPoint)) (k id : ℕ) (v : PressPoint)
    (h : k ≠ id) :
    ((m ++ [(id, v)]).find? fun kp => kp.1 == k) = (m.find? fun kp => kp.1 == k) := by
  induction m with
  | nil =>
      simp only [List.nil_append]
      rw [List.find?_cons_of_neg _ (by simpa using fun hh : id = k => h hh.symm)]
  | cons p rest ih =>
      rw [List.cons_append]
      by_cases hk : p.1 = k
      · rw [List.find?_cons_of_pos _ (by simpa using hk),
          List.find?_cons_of_pos _ (by simpa using hk)]
      · rw [List.find?_cons_of_neg _ (by simpa using hk),
          List.find?_cons_of_neg _ (by simpa using hk)]
        exact ih

theorem lookupPress_mapSet_ne (m : List (ℕ × PressPoint)) (k id : ℕ) (v : PressPoint)
    (h : k ≠ id) : lookupPress (mapSet m id v) k = lookupPress m k := by
  unfold mapSet lookupPress
  by_cases hp : (m.any fun kp => kp.1 == id) = true
  · rw [if_pos hp, find_map_replace_ne m k id v h]
  · rw [if_neg hp, find_append_single_ne m k id v h]

theorem mapSet_key_val (m : List (ℕ × PressPoint)) (k : ℕ) (v : PressPoint) :
    ∀ kp ∈ mapSet m k v, kp.1 = k → kp.2 = v := by
  intro kp hkp hk
  unfold mapSet at hkp
  by_cases h : (m.any fun kp => kp.1 == k) = true
  · rw [if_pos h] at hkp
    rcases List.mem_map.1 hkp with ⟨q, _, rfl⟩
    by_cases hq : q.1 = k
    · simp [hq]
    · rw [if_neg hq] at hk ⊢
      exact absurd hk hq
  · rw [if_neg h] at hkp
    rcases List.mem_append.1 hkp with hin | hin
    · exact absurd (List.any_eq_true.2 ⟨kp, hin, by simpa using hk⟩) h
    · rcases List.mem_singleton.1 hin with rfl
      rfl

@[simp]
theorem updatePressState_pressPoints (s : EngineState) :
    (updatePressState s).pressPoints =
      (s.pressPoints.map fun kp => (kp.1, stepPressPoint s kp.2)).filter
        (fun kp => !(decide (kp.2.targetDepth ≤ 0 ∧ |kp.2.depth| < 0.001))) := rfl

theorem endPress_pressPoints_of_found (s : EngineState) (id : ℕ) (rands : ℕ → ℝ)
    (point : PressPoint) (h : lookupPress s.pressPoints id = some point) :
    (endPress s id rands).pressPoints =
      s.pressPoints.map fun kp =>
        if kp.1 = id then (kp.1, { kp.2 with targetDepth := 0 }) else kp := by
  unfold endPress
  rw [h]

theorem press_removed_after_one_step (s : EngineState) (id : ℕ) (x y : ℝ) (rands : ℕ → ℝ) :
    lookupPress (updatePressState (endPress (startPress s id x y) id rands)).pressPoints id
      = none := by
  have hl : lookupPress (startPress s id x y).pressPoints id = some ⟨x, y, 0, 1.0⟩ := by
    rw [startPress_pressPoints]
    exact lookupPress_mapSet_self _ _ _
  have he := endPress_pressPoints_of_found (startPress s id x y) id rands _ hl
  unfold lookupPress
  rw [Option.map_eq_none']
  apply List.find?_eq_none.mpr
  intro kp hkp hbeq
  have hk : kp.1 = id := by simpa using hbeq
  rw [updatePressState_pressPoints] at hkp
  rcases List.mem_filter.1 hkp with ⟨hmem, hpred⟩
  rcases List.mem_map.1 hmem with ⟨q, hq, rfl⟩
  rw [he] at hq
  rcases List.mem_map.1 hq with ⟨p, hp, rfl⟩
  rw [startPress_pressPoints] at hp
  by_cases hpid : p.1 = id
  · have hv := mapSet_key_val s.pressPoints id ⟨x, y, 0, 1.0⟩ p hp hpid
    rw [if_pos hpid] at hpred
    rw [hv] at hpred
    simp only [stepPressPoint] at hpred
    norm_num at hpred
  · rw [if_neg hpid] at hk
    exact hpid hk

/-- C9: every `updatePressState` step eases `depth` by
`(targetDepth - depth) × rate` with `rate = pressSpeed` (0.15 in the
constructed engine) while `targetDepth > 0` and `rate = releaseSpeed`
(0.08) otherwise; a point whose target is 0 is deleted at the first step
where `|depth| < 0.001`; and `startPress` immediately followed by
`endPress` is well defined and the point is removed by the very next
`updatePressState` call. -/
theorem press_lifecycle_c9 :
    (∀ (s : EngineState) (p : PressPoint), stepPressPoint s p =
      { p with depth := p.depth + (p.targetDepth - p.depth) *
          (if p.targetDepth > 0 then s.pressSpeed else s.releaseSpeed) }) ∧
    initialState.pressSpeed = 0.15 ∧ initialState.releaseSpeed = 0.08 ∧
    (∀ s : EngineState, (updatePressState s).pressPoints =
      (s.pressPoints.map fun kp => (kp.1, stepPressPoint s kp.2)).filter
        (fun kp => !(decide (kp.2.targetDepth ≤ 0 ∧ |kp.2.depth| < 0.001)))) ∧
    (∀ (s : EngineState) (id : ℕ) (x y : ℝ) (rands : ℕ → ℝ),
      lookupPress (updatePressState (endPress (startPress s id x y) id rands)).pressPoints id
        = none) := by
  refine ⟨?_, rfl, rfl, fun _ => rfl, press_removed_after_one_step⟩
  intro s p
  unfold stepPressPoint
  split_ifs <;> rfl

/-- C10: `startPress` on an id that is already present — including one whose
point is currently releasing — replaces the stored record with a fresh one
at the new position with `depth = 0` and `targetDepth = 1`, discarding the
previous depth; all other ids are left unchanged. -/
theorem startPress_replaces_c10 (s : EngineState) (id : ℕ) (x y : ℝ) :
    lookupPress (startPress s id x y).pressPoints id = some ⟨x, y, 0, 1.0⟩ ∧
    ∀ k, k ≠ id →
      lookupPress (startPress s id x y).pressPoints k = lookupPress s.pressPoints k := by
  constructor
  · rw [startPress_pressPoints]
    exact lookupPress_mapSet_self _ _ _
  · intro k hk
    rw [startPress_pressPoints]
    exact lookupPress_mapSet_ne _ _ _ _ hk

/-- Witness for C10: concrete instantiation, with the `k ≠ id` hypothesis
discharged at `k = 1`, `id = 0` on a state that already holds a releasing
point under id 0. -/
theorem startPress_replaces_c10_witness :
    lookupPress (startPress
      { initialState with pressPoints := [(0, ⟨1/4, 1/4, 1/2, 0⟩)] } 0 (1/2) (1/3)).pressPoints
      0 = some ⟨1/2, 1/3, 0, 1.0⟩ ∧
    ((1 : ℕ) ≠ 0 ∧
      lookupPress (startPress
        { initialState with pressPoints := [(0, ⟨1/4, 1/4, 1/2, 0⟩)] } 0 (1/2) (1/3)).pressPoints
        1 =
      lookupPress ({ initialState with
        pressPoints := [(0, ⟨1/4, 1/4, 1/2, 0⟩)] } : EngineState).pressPoints 1) :=
  ⟨(startPress_replaces_c10 _ 0 (1/2) (1/3)).1,
    one_ne_zero, (startPress_replaces_c10 _ 0 (1/2) (1/3)).2 1 one_ne_zero⟩

@[simp]
theorem addRegion_maxDisplacement (s : EngineState) (rIn : RegionBox) (a b c : ℝ) :
    (addRegion s rIn a b c).maxDisplacement = s.maxDisplacement := rfl

theorem abs_clamp_le (v M : ℝ) (hM : 0 ≤ M) : |clamp v (-M) M| ≤ M := by
  unfold clamp
  rw [abs_le]
  refine ⟨le_max_left _ _, max_le (by linarith) (min_le_left _ _)⟩

theorem integrateRegion_pos_bound (s : EngineState) (a : Vec2) (r : Region)
    (hM : 0 ≤ s.maxDisplacement) :
    |(integrateRegion s a r).position.x| ≤ s.maxDisplacement ∧
    |(integrateRegion s a r).position.y| ≤ s.maxDisplacement := by
  unfold integrateRegion
  dsimp only
  constructor <;> split_ifs <;>
    simp only [abs_zero] <;>
    first
      | exact hM
      | exact abs_clamp_le _ _ hM

theorem updateRegionsFrom_pos_bound (s : EngineState) (hist : List ForceEntry)
    (hM : 0 ≤ s.maxDisplacement) :
    ∀ (i : ℕ) (rs : List Region), ∀ r' ∈ updateRegionsFrom s hist i rs,
      |r'.position.x| ≤ s.maxDisplacement ∧ |r'.position.y| ≤ s.maxDisplacement := by
  intro i rs
  induction rs generalizing i with
  | nil => intro r' h; simp [updateRegionsFrom] at h
  | cons r rest ih =>
      intro r' h
      simp only [updateRegionsFrom] at h
      rcases List.mem_cons.1 h with rfl | h'
      · exact integrateRegion_pos_bound s _ r hM
      · exact ih (i + 1) r' h'

/-- C1 (amended): after every `update` step the position components of every
region are clamped to `[-maxDisplacement, maxDisplacement]` on each axis
independently (given the configured `maxDisplacement` is nonnegative, as the
default 25 is); the velocity components carry no such bound. -/
theorem position_clamped_c1 (s : EngineState) (f : Vec2) (pid : Option String)
    (hM : 0 ≤ s.maxDisplacement) :
    ∀ r ∈ (updateState s f pid).regions,
      |r.position.x| ≤ s.maxDisplacement ∧ |r.position.y| ≤ s.maxDisplacement := by
  intro r hr
  exact updateRegionsFrom_pos_bound (updatePressState s) _ hM 0 _ r hr

/-- Witness for C1 (amended) on a concrete engine with one region and a
large force. -/
theorem position_clamped_c1_witness :
    (0 : ℝ) ≤ (addRegion initialState ⟨3/10, 3/10, 2/5, 2/5⟩ 0 0 0).maxDisplacement ∧
    ∀ r ∈ (updateState (addRegion initialState ⟨3/10, 3/10, 2/5, 2/5⟩ 0 0 0)
        ⟨100, 0⟩ none).regions,
      |r.position.x| ≤ (addRegion initialState ⟨3/10, 3/10, 2/5, 2/5⟩ 0 0 0).maxDisplacement ∧
      |r.position.y| ≤ (addRegion initialState ⟨3/10, 3/10, 2/5, 2/5⟩ 0 0 0).maxDisplacement :=
  ⟨by norm_num [initialState], position_clamped_c1 _ ⟨100, 0⟩ none (by norm_num [initialState])⟩

/-- C1 counterexample: one `update` with force `{x: 100, y: 0}` on a fresh
one-region engine leaves the region's X velocity at 400, while
`maxDisplacement` is 25 — velocities are not clamped by `update`. -/
theorem velocity_not_clamped_c1 :
    ((updateState (addRegion initialState ⟨3/10, 3/10, 2/5, 2/5⟩ 0 0 0)
        ⟨100, 0⟩ none).regions.head?.map fun r => r.velocity.x) = some 400 ∧
    (updateState (addRegion initialState ⟨3/10, 3/10, 2/5, 2/5⟩ 0 0 0)
        ⟨100, 0⟩ none).maxDisplacement = 25 ∧
    ¬(|(400 : ℝ)| ≤ 25) := by
  refine ⟨?_, rfl, by norm_num⟩
  norm_num [updateState, addRegion, initialState, updatePressState, newHistory,
    updateRegionsFrom, delayedForceFor, appliedForceFor, integrateRegion, clamp]

theorem newHistory_eq_take (s : EngineState) (fx fy : ℝ) (pid : Option String)
    (h8 : s.historyLength = 8) (hlen : s.forceHistory.length ≤ 8) :
    newHistory s fx fy pid = (⟨fx, fy, pid⟩ :: s.forceHistory).take 8 := by
  unfold newHistory
  rw [h8]
  dsimp only
  by_cases h : s.forceHistory.length + 1 > 8
  · have h9 : s.forceHistory.length = 8 := by omega
    rw [if_pos (by simpa using h), List.dropLast_eq_take]
    simp [h9]
  · rw [if_neg (by simpa using h), List.take_of_length_le (by simp; omega)]

/-- C3: `update` prepends the sensitivity-scaled force (with pattern id) to
the history, which behaves as a capacity-8 FIFO with the newest entry at
index 0 (the oldest entry is dropped when the length would exceed 8); the
delayed force for a region is read at index
`min(delayFrames, length - 1)`; and a region added as index `i` gets
`delayFrames = 3·i + b` with `b ∈ {0, 1}` determined by the injected
`Math.random()` sample. -/
theorem force_history_fifo_c3 (s : EngineState) (f : Vec2) (pid : Option String)
    (h8 : s.historyLength = 8) (hlen : s.forceHistory.length ≤ 8) :
    (updateState s f pid).forceHistory =
      (⟨f.x * s.sensitivity, f.y * s.sensitivity, pid⟩ :: s.forceHistory).take 8 ∧
    (updateState s f pid).forceHistory.length ≤ 8 ∧
    (updateState s f pid).forceHistory.head? =
      some ⟨f.x * s.sensitivity, f.y * s.sensitivity, pid⟩ ∧
    (∀ (hist : List ForceEntry) (r : Region),
      delayedForceFor hist r = hist.getD (min r.delayFrames (hist.length - 1)) ⟨0, 0, none⟩) ∧
    (∀ (rIn : RegionBox) (a b rd : ℝ), 0 ≤ rd → rd < 1 →
      ((addRegion s rIn a b rd).regions.getLast?.map fun r => r.delayFrames) =
          some (3 * s.regions.length) ∨
      ((addRegion s rIn a b rd).regions.getLast?.map fun r => r.delayFrames) =
          some (3 * s.regions.length + 1)) := by
  have key : (updateState s f pid).forceHistory =
      newHistory (updatePressState s) (f.x * s.sensitivity) (f.y * s.sensitivity) pid := rfl
  have keyTake := newHistory_eq_take (updatePressState s) (f.x * s.sensitivity)
    (f.y * s.sensitivity) pid (by simpa using h8) (by simpa using hlen)
  rw [key, keyTake]
  refine ⟨rfl, ?_, ?_, fun hist r => rfl, ?_⟩
  · simp [List.length_take]
  · rw [List.take_succ_cons]
    rfl
  · intro rIn a b rd hrd0 hrd1
    have hconcat : (addRegion s rIn a b rd).regions.getLast? = some
        { x := rIn.x, y := rIn.y, width := rIn.width, height := rIn.height
          position := ⟨0, 0⟩, velocity := ⟨0, 0⟩
          stiffness := s.baseStiffness * (0.7 + a * 0.6)
          damping := s.baseDamping * (0.95 + b * 0.1)
          delayFrames := s.regions.length * 3 + (⌊rd * 2⌋).toNat
          phaseOffset := (s.regions.length : ℝ) * Real.pi * 0.3 } := by
      unfold addRegion
      dsimp only
      exact List.getLast?_concat _
    have h0 : (0 : ℤ) ≤ ⌊rd * 2⌋ := Int.floor_nonneg.2 (by linarith)
    have h2 : ⌊rd * 2⌋ < 2 := Int.floor_lt.2 (by push_cast; linarith)
    have hcases : (⌊rd * 2⌋).toNat = 0 ∨ (⌊rd * 2⌋).toNat = 1 := by omega
    rcases hcases with hc | hc
    · left
      rw [hconcat]
      simp only [Option.map_some']
      congr 1
      rw [hc]
      omega
    · right
      rw [hconcat]
      simp only [Option.map_some']
      congr 1
      rw [hc]
      omega

/-- Witness for C3 at a concrete engine, force, pattern id and random
sample. -/
theorem force_history_fifo_c3_witness :
    (initialState.historyLength = 8 ∧ initialState.forceHistory.length ≤ 8 ∧
      (0 : ℝ) ≤ 1/2 ∧ (1/2 : ℝ) < 1) ∧
    (updateState initialState ⟨1, 2⟩ (some "wave")).forceHistory =
      (⟨1 * initialState.sensitivity, 2 * initialState.sensitivity, some "wave"⟩ ::
        initialState.forceHistory).take 8 ∧
    (((addRegion initialState ⟨0, 0, 1, 1⟩ 0 0 (1/2)).regions.getLast?.map
        fun r => r.delayFrames) = some (3 * initialState.regions.length) ∨
      ((addRegion initialState ⟨0, 0, 1, 1⟩ 0 0 (1/2)).regions.getLast?.map
        fun r => r.delayFrames) = some (3 * initialState.regions.length + 1)) :=
  ⟨⟨rfl, by norm_num [initialState], by norm_num, by norm_num⟩,
    (force_history_fifo_c3 initialState ⟨1, 2⟩ (some "wave") rfl
      (by norm_num [initialState])).1,
    (force_history_fifo_c3 initialState ⟨1, 2⟩ (some "wave") rfl
      (by norm_num [initialState])).2.2.2.2 ⟨0, 0, 1, 1⟩ 0 0 (1/2)
      (by norm_num) (by norm_num)⟩

@[simp]
theorem updateState_regions (s : EngineState) (f : Vec2) (pid : Option String) :
    (updateState s f pid).regions = updateRegionsFrom (updatePressState s)
      (newHistory (updatePressState s) (f.x * s.sensitivity) (f.y * s.sensitivity) pid)
      0 s.regions := rfl

theorem updateRegionsFrom_getD (s : EngineState) (hist : List ForceEntry) :
    ∀ (i0 j : ℕ) (rs : List Region) (d : Region), j < rs.length →
      (updateRegionsFrom s hist i0 rs).getD j d =
        integrateRegion s (appliedForceFor (i0 + j) (delayedForceFor hist (rs.getD j d)))
          (rs.getD j d) := by
  intro i0 j rs
  induction rs generalizing i0 j with
  | nil => intro d h; simp at h
  | cons rh rest ih =>
      intro d h
      cases j with
      | zero => simp [updateRegionsFrom]
      | succ j' =>
          simp only [updateRegionsFrom, List.getD_cons_succ]
          have : i0 + (j' + 1) = (i0 + 1) + j' := by omega
          rw [this]
          exact ih (i0 + 1) j' d (by simpa using Nat.lt_of_succ_lt_succ h)

/-- C5: during `update` the region at index `j` is integrated with the
applied force derived from its own delayed entry `e`; the X component is
negated exactly when `e.patternId` is `"kneadLeft"` or `"kneadRight"` and
`j` is odd, the Y component is always passed through unchanged, and no
negation happens for any other (or absent) pattern id. -/
theorem knead_mirroring_c5 (s : EngineState) (f : Vec2) (pid : Option String)
    (j : ℕ) (hj : j < s.regions.length) :
    ((updateState s f pid).regions.getD j defaultRegion =
      integrateRegion (updatePressState s)
        (appliedForceFor j (delayedForceFor
          (newHistory (updatePressState s) (f.x * s.sensitivity) (f.y * s.sensitivity) pid)
          (s.regions.getD j defaultRegion)))
        (s.regions.getD j defaultRegion)) ∧
    (∀ (i : ℕ) (e : ForceEntry),
      (e.patternId = some "kneadLeft" ∨ e.patternId = some "kneadRight") → i % 2 = 1 →
        appliedForceFor i e = ⟨-e.x, e.y⟩) ∧
    (∀ (i : ℕ) (e : ForceEntry),
      (e.patternId = some "kneadLeft" ∨ e.patternId = some "kneadRight") → i % 2 = 0 →
        appliedForceFor i e = ⟨e.x, e.y⟩) ∧
    (∀ (i : ℕ) (e : ForceEntry),
      ¬(e.patternId = some "kneadLeft" ∨ e.patternId = some "kneadRight") →
        appliedForceFor i e = ⟨e.x, e.y⟩) := by
  refine ⟨?_, ?_, ?_, ?_⟩
  · rw [updateState_regions]
    have := updateRegionsFrom_getD (updatePressState s)
      (newHistory (updatePressState s) (f.x * s.sensitivity) (f.y * s.sensitivity) pid)
      0 j s.regions defaultRegion hj
    simpa using this
  · intro i e he hi
    unfold appliedForceFor
    rw [if_pos ⟨he, hi⟩]
  · intro i e he hi
    unfold appliedForceFor
    rw [if_neg ?_]
    rintro ⟨-, h1⟩
    omega
  · intro i e he
    unfold appliedForceFor
    rw [if_neg ?_]
    rintro ⟨h1, -⟩
    exact he h1

/-- Witness for C5: a two-region engine driven with the `"kneadLeft"`
pattern, instantiated at the odd index 1, plus the three parity cases of
the knead adjustment at concrete entries. -/
theorem knead_mirroring_c5_witness :
    (1 < (addRegion (addRegion initialState ⟨0, 0, 1, 1⟩ 0 0 0)
        ⟨0, 0, 1, 1⟩ 0 0 0).regions.length) ∧
    ((updateState (addRegion (addRegion initialState ⟨0, 0, 1, 1⟩ 0 0 0) ⟨0, 0, 1, 1⟩ 0 0 0)
        ⟨1, 0⟩ (some "kneadLeft")).regions.getD 1 defaultRegion =
      integrateRegion
        (updatePressState (addRegion (addRegion initialState ⟨0, 0, 1, 1⟩ 0 0 0)
          ⟨0, 0, 1, 1⟩ 0 0 0))
        (appliedForceFor 1 (delayedForceFor
          (newHistory
            (updatePressState (addRegion (addRegion initialState ⟨0, 0, 1, 1⟩ 0 0 0)
              ⟨0, 0, 1, 1⟩ 0 0 0))
            (1 * (addRegion (addRegion initialState ⟨0, 0, 1, 1⟩ 0 0 0)
              ⟨0, 0, 1, 1⟩ 0 0 0).sensitivity)
            (0 * (addRegion (addRegion initialState ⟨0, 0, 1, 1⟩ 0 0 0)
              ⟨0, 0, 1, 1⟩ 0 0 0).sensitivity)
            (some "kneadLeft"))
          ((addRegion (addRegion initialState ⟨0, 0, 1, 1⟩ 0 0 0)
            ⟨0, 0, 1, 1⟩ 0 0 0).regions.getD 1 defaultRegion)))
        ((addRegion (addRegion initialState ⟨0, 0, 1, 1⟩ 0 0 0)
          ⟨0, 0, 1, 1⟩ 0 0 0).regions.getD 1 defaultRegion)) ∧
    appliedForceFor 1 ⟨3, 4, some "kneadLeft"⟩ = ⟨-3, 4⟩ ∧
    appliedForceFor 2 ⟨3, 4, some "kneadRight"⟩ = ⟨3, 4⟩ ∧
    appliedForceFor 1 ⟨3, 4, some "wave"⟩ = ⟨3, 4⟩ := by
  have hj : 1 < (addRegion (addRegion initialState ⟨0, 0, 1, 1⟩ 0 0 0)
      ⟨0, 0, 1, 1⟩ 0 0 0).regions.length := by
    simp [addRegion, initialState]
  have T := knead_mirroring_c5
    (addRegion (addRegion initialState ⟨0, 0, 1, 1⟩ 0 0 0) ⟨0, 0, 1, 1⟩ 0 0 0)
    ⟨1, 0⟩ (some "kneadLeft") 1 hj
  exact ⟨hj, T.1, T.2.1 1 ⟨3, 4, some "kneadLeft"⟩ (Or.inl rfl) rfl,
    T.2.2.1 2 ⟨3, 4, some "kneadRight"⟩ (Or.inr rfl) rfl,
    T.2.2.2 1 ⟨3, 4, some "wave"⟩ (by simp)⟩

theorem calculateRegionInfluence_eq_core_mul_bias (px py : ℝ) (r : Region) :
    calculateRegionInfluence px py r =
      influenceCore (ellipseDistOf px py r) * verticalBiasOf py r := rfl

theorem influenceCore_continuous : Continuous influenceCore := by
  unfold influenceCore
  apply Continuous.if
  · intro a ha
    have hIio : {x : ℝ | x < 0.6} = Set.Iio 0.6 := rfl
    rw [hIio, frontier_Iio] at ha
    rw [Set.mem_singleton_iff.1 ha]
    norm_num
  · have h1 : Continuous fun d : ℝ => -d * d * 0.5 :=
      (continuous_neg.mul continuous_id).mul continuous_const
    exact Real.continuous_exp.comp h1
  · have ht : Continuous fun d : ℝ => (d - 0.6) / (1.5 - 0.6) :=
      (continuous_id.sub continuous_const).div_const _
    have h2 : Continuous fun d : ℝ =>
        1 - ((d - 0.6) / (1.5 - 0.6)) * ((d - 0.6) / (1.5 - 0.6)) * ((d - 0.6) / (1.5 - 0.6)) :=
      continuous_const.sub ((ht.mul ht).mul ht)
    exact continuous_const.mul (continuous_const.max h2)

theorem influenceCore_eq_zero_of_far (d : ℝ) (hd : 3/2 ≤ d) : influenceCore d = 0 := by
  unfold influenceCore
  rw [if_neg (by push_neg; linarith)]
  have h9 : (0:ℝ) < 1.5 - 0.6 := by norm_num
  have ht : 1 ≤ (d - 0.6) / (1.5 - 0.6) := by
    rw [le_div_iff₀ h9]
    linarith
  have hle : 1 - ((d - 0.6) / (1.5 - 0.6)) * ((d - 0.6) / (1.5 - 0.6)) *
      ((d - 0.6) / (1.5 - 0.6)) ≤ 0 := by nlinarith
  rw [max_eq_left hle, mul_zero]

/-- C2: `calculateRegionInfluence` equals the spec's two-piece formula —
Gaussian core `exp(-0.5·d²)` for `d < 0.6`, the faded tail
`exp(-0.5·0.6²)·max(0, 1-t³)` with `t = (d-0.6)/0.9` for `d ≥ 0.6` — times
the clamped vertical bias `clamp(1 + (cy-py)·0.5, 0.5, 1.5)`; the radial
core is continuous (in particular at `d = 0.6`); and the core is exactly 0
for all `d ≥ 1.5`. -/
theorem influence_formula_c2 (px py : ℝ) (r : Region) :
    calculateRegionInfluence px py r =
      influenceCore (ellipseDistOf px py r) * verticalBiasOf py r ∧
    verticalBiasOf py r = max 0.5 (min 1.5 (1 + (r.y + r.height / 2 - py) * 0.5)) ∧
    (ellipseDistOf px py r < 0.6 →
      calculateRegionInfluence px py r =
        Real.exp (-0.5 * ellipseDistOf px py r ^ 2) * verticalBiasOf py r) ∧
    (0.6 ≤ ellipseDistOf px py r →
      calculateRegionInfluence px py r =
        Real.exp (-0.5 * (0.6 : ℝ) ^ 2) *
          max 0 (1 - ((ellipseDistOf px py r - 0.6) / 0.9) ^ 3) * verticalBiasOf py r) ∧
    ContinuousAt influenceCore 0.6 ∧
    (∀ d : ℝ, 3/2 ≤ d → influenceCore d = 0) := by
  refine ⟨rfl, by norm_num [verticalBiasOf], ?_, ?_,
    influenceCore_continuous.continuousAt, influenceCore_eq_zero_of_far⟩
  · intro hd
    rw [calculateRegionInfluence_eq_core_mul_bias]
    unfold influenceCore
    rw [if_pos hd]
    congr 1
    ring_nf
  · intro hd
    rw [calculateRegionInfluence_eq_core_mul_bias]
    unfold influenceCore
    rw [if_neg (not_lt.2 hd)]
    congr 2
    · norm_num
    · congr 1
      rw [show (1.5 : ℝ) - 0.6 = 0.9 by norm_num]
      ring_nf

/-- Witness for C2: the Gaussian branch at the region center (distance 0)
and the vanishing tail at distance 2. -/
theorem influence_formula_c2_witness :
    (ellipseDistOf 1 1 ⟨0, 0, 2, 2, ⟨0, 0⟩, ⟨0, 0⟩, 0, 0, 0, 0⟩ < 0.6 ∧
      calculateRegionInfluence 1 1 ⟨0, 0, 2, 2, ⟨0, 0⟩, ⟨0, 0⟩, 0, 0, 0, 0⟩ =
        Real.exp (-0.5 * ellipseDistOf 1 1 ⟨0, 0, 2, 2, ⟨0, 0⟩, ⟨0, 0⟩, 0, 0, 0, 0⟩ ^ 2) *
          verticalBiasOf 1 ⟨0, 0, 2, 2, ⟨0, 0⟩, ⟨0, 0⟩, 0, 0, 0, 0⟩) ∧
    ((3 : ℝ)/2 ≤ 2 ∧ influenceCore 2 = 0) := by
  have hd : ellipseDistOf 1 1 ⟨0, 0, 2, 2, ⟨0, 0⟩, ⟨0, 0⟩, 0, 0, 0, 0⟩ < 0.6 := by
    unfold ellipseDistOf
    norm_num
  exact ⟨⟨hd, (influence_formula_c2 1 1 ⟨0, 0, 2, 2, ⟨0, 0⟩, ⟨0, 0⟩, 0, 0, 0, 0⟩).2.2.1 hd⟩,
    by norm_num,
    (influence_formula_c2 1 1 ⟨0, 0, 2, 2, ⟨0, 0⟩, ⟨0, 0⟩, 0, 0, 0, 0⟩).2.2.2.2.2 2
      (by norm_num)⟩

theorem influenceCore_nonneg (d : ℝ) : 0 ≤ influenceCore d := by
  unfold influenceCore
  split_ifs
  · exact (Real.exp_pos _).le
  · exact mul_nonneg (Real.exp_pos _).le (le_max_left 0 _)

theorem influenceCore_le_one (d : ℝ) : influenceCore d ≤ 1 := by
  unfold influenceCore
  split_ifs with h
  · rw [Real.exp_le_one_iff]
    nlinarith [mul_self_nonneg d]
  · push_neg at h
    have ht : 0 ≤ (d - 0.6) / (1.5 - 0.6) := div_nonneg (by linarith) (by norm_num)
    have hmax : max 0 (1 - ((d - 0.6) / (1.5 - 0.6)) * ((d - 0.6) / (1.5 - 0.6)) *
        ((d - 0.6) / (1.5 - 0.6))) ≤ 1 := max_le (by norm_num) (by nlinarith)
    calc Real.exp (-(0.6:ℝ) * 0.6 * 0.5) *
        max 0 (1 - ((d - 0.6) / (1.5 - 0.6)) * ((d - 0.6) / (1.5 - 0.6)) *
          ((d - 0.6) / (1.5 - 0.6))) ≤ 1 * 1 :=
          mul_le_mul (by rw [Real.exp_le_one_iff]; norm_num) hmax (le_max_left _ _)
            (by norm_num)
      _ = 1 := mul_one 1

theorem verticalBiasOf_bounds (py : ℝ) (r : Region) :
    0.5 ≤ verticalBiasOf py r ∧ verticalBiasOf py r ≤ 1.5 := by
  unfold verticalBiasOf
  exact ⟨le_max_left _ _, max_le (by norm_num) (min_le_left _ _)⟩

/-- C6 (amended): the influence function always returns a value in the
closed interval [0, 1.5]: the radial core lies in [0, 1] and the vertical
bias multiplier in [0.5, 1.5], so points above a region center can receive
influence above 1. -/
theorem influence_range_c6 (px py : ℝ) (r : Region) :
    0 ≤ calculateRegionInfluence px py r ∧ calculateRegionInfluence px py r ≤ 1.5 := by
  rw [calculateRegionInfluence_eq_core_mul_bias]
  obtain ⟨hb1, hb2⟩ := verticalBiasOf_bounds py r
  constructor
  · exact mul_nonneg (influenceCore_nonneg _) (by linarith)
  · calc influenceCore (ellipseDistOf px py r) * verticalBiasOf py r ≤ 1 * 1.5 :=
        mul_le_mul (influenceCore_le_one _) hb2 (by linarith) (by norm_num)
      _ = 1.5 := one_mul _

theorem exp_eighth_lt : Real.exp ((1:ℝ)/8) < 1.25 := by
  have h8 : Real.exp ((1:ℝ)/8) ^ (8 : ℕ) = Real.exp 1 := by
    rw [← Real.exp_nat_mul]
    norm_num
  have hlt : Real.exp ((1:ℝ)/8) ^ (8 : ℕ) < (1.25 : ℝ) ^ (8 : ℕ) := by
    rw [h8]
    calc Real.exp 1 < 2.7182818286 := Real.exp_one_lt_d9
      _ < (1.25 : ℝ) ^ (8 : ℕ) := by norm_num
  exact lt_of_pow_lt_pow_left₀ 8 (by norm_num) hlt

theorem exp_neg_eighth_gt : (0.8 : ℝ) < Real.exp (-(1/8 : ℝ)) := by
  have hpos := Real.exp_pos ((1:ℝ)/8)
  have hinv : (1.25 : ℝ)⁻¹ < (Real.exp ((1:ℝ)/8))⁻¹ := inv_strictAnti₀ hpos exp_eighth_lt
  rw [Real.exp_neg]
  calc (0.8 : ℝ) = (1.25 : ℝ)⁻¹ := by norm_num
    _ < (Real.exp ((1:ℝ)/8))⁻¹ := hinv

/-- C6 counterexample: at the point (1, 1/2), directly above the center of
the region with box {x:0, y:0, width:2, height:2}, the influence is
`exp(-1/8) × 1.25 > 1`, contradicting the claimed range [0, 1]. -/
theorem influence_gt_one_c6 :
    1 < calculateRegionInfluence 1 (1/2) ⟨0, 0, 2, 2, ⟨0, 0⟩, ⟨0, 0⟩, 0, 0, 0, 0⟩ := by
  have hd : ellipseDistOf 1 (1/2) ⟨0, 0, 2, 2, ⟨0, 0⟩, ⟨0, 0⟩, 0, 0, 0, 0⟩ =
      Real.sqrt ((1/2 : ℝ) ^ 2) := by
    unfold ellipseDistOf
    norm_num
  have hd2 : ellipseDistOf 1 (1/2) ⟨0, 0, 2, 2, ⟨0, 0⟩, ⟨0, 0⟩, 0, 0, 0, 0⟩ = 1/2 := by
    rw [hd, Real.sqrt_sq (by norm_num : (0:ℝ) ≤ 1/2)]
  have hbias : verticalBiasOf (1/2) ⟨0, 0, 2, 2, ⟨0, 0⟩, ⟨0, 0⟩, 0, 0, 0, 0⟩ = 1.25 := by
    unfold verticalBiasOf
    dsimp only
    rw [show (1.0 : ℝ) + ((0:ℝ) + 2 / 2 - 1/2) * 0.5 = 1.25 by norm_num]
    rw [min_eq_right (by norm_num), max_eq_right (by norm_num)]
  rw [calculateRegionInfluence_eq_core_mul_bias, hd2, hbias]
  unfold influenceCore
  rw [if_pos (by norm_num)]
  rw [show -(1/2 : ℝ) * (1/2) * 0.5 = -(1/8 : ℝ) by norm_num]
  nlinarith [exp_neg_eighth_gt]

theorem influence_eq_zero_of_far (px py : ℝ) (r : Region)
    (hd : 3/2 ≤ ellipseDistOf px py r) : calculateRegionInfluence px py r = 0 := by
  rw [calculateRegionInfluence_eq_core_mul_bias, influenceCore_eq_zero_of_far _ hd, zero_mul]

theorem farRegion_influence_zero : calculateRegionInfluence 10 10 farRegion = 0 := by
  apply influence_eq_zero_of_far
  have h1 : ellipseDistOf 10 10 farRegion = Real.sqrt 19602 := by
    unfold ellipseDistOf farRegion
    norm_num
  rw [h1, show (3/2 : ℝ) = Real.sqrt ((3/2) ^ 2) from (Real.sqrt_sq (by norm_num)).symm]
  apply Real.sqrt_le_sqrt
  norm_num

/-- C4 (amended): `applyForceAtPosition` advances a region only when
`influence(pointerPos, region) > 0.01`; those regions get the same
spring/damping/semi-implicit-Euler/clamp/snap sequence as `update` with
applied force `force × sensitivity × influence` (no history delay, no
knead-mirroring), while every region at or below the 0.01 influence gate is
left entirely unchanged — no spring or damping force is applied to it. -/
theorem applyForce_gated_c4 (s : EngineState) (force : Vec2) (posX posY : ℝ) :
    (applyForceAtPosition s force posX posY).1.regions =
      (updatePressState s).regions.map (fun r =>
        if calculateRegionInfluence posX posY r > 0.01 then
          integrateRegion (updatePressState s)
            ⟨force.x * s.sensitivity * calculateRegionInfluence posX posY r,
             force.y * s.sensitivity * calculateRegionInfluence posX posY r⟩ r
        else r) ∧
    (∀ r : Region, calculateRegionInfluence posX posY r ≤ 0.01 →
      (if calculateRegionInfluence posX posY r > 0.01 then
          integrateRegion (updatePressState s)
            ⟨force.x * s.sensitivity * calculateRegionInfluence posX posY r,
             force.y * s.sensitivity * calculateRegionInfluence posX posY r⟩ r
        else r) = r) := by
  refine ⟨rfl, fun r h => ?_⟩
  rw [if_neg (not_lt.2 h)]

/-- Witness for C4 (amended): the gate hypothesis discharged at the far
region, whose influence at the pointer (10, 10) is exactly 0. -/
theorem applyForce_gated_c4_witness :
    calculateRegionInfluence 10 10 farRegion ≤ 0.01 ∧
    (if calculateRegionInfluence 10 10 farRegion > 0.01 then
        integrateRegion (updatePressState farState)
          ⟨1 * farState.sensitivity * calculateRegionInfluence 10 10 farRegion,
           0 * farState.sensitivity * calculateRegionInfluence 10 10 farRegion⟩ farRegion
      else farRegion) = farRegion :=
  have h : calculateRegionInfluence 10 10 farRegion ≤ 0.01 := by
    rw [farRegion_influence_zero]
    norm_num
  ⟨h, (applyForce_gated_c4 farState ⟨1, 0⟩ 10 10).2 farRegion h⟩

/-- C4 counterexample: calling `applyForceAtPosition` with pointer (10, 10)
on the engine holding only the far region leaves that region's position at
(5, 5) — no spring or damping force is applied — whereas the integration
the claim demands would have moved `position.x` to 4.6. -/
theorem applyForce_skips_region_c4 :
    ((applyForceAtPosition farState ⟨1, 0⟩ 10 10).1.regions.head?.map
      fun r => r.position.x) = some 5 ∧
    (integrateRegion (updatePressState farState) ⟨0, 0⟩ farRegion).position.x = 23/5 ∧
    (5 : ℝ) ≠ 23/5 := by
  refine ⟨?_, ?_, by norm_num⟩
  · have hregs : (applyForceAtPosition farState ⟨1, 0⟩ 10 10).1.regions =
        (updatePressState farState).regions.map (fun r =>
          if calculateRegionInfluence 10 10 r > 0.01 then
            integrateRegion (updatePressState farState)
              ⟨1 * farState.sensitivity * calculateRegionInfluence 10 10 r,
               0 * farState.sensitivity * calculateRegionInfluence 10 10 r⟩ r
          else r) := (applyForce_gated_c4 farState ⟨1, 0⟩ 10 10).1
    rw [hregs, updatePressState_regions,
      show farState.regions = [farRegion] from rfl,
      List.map_cons, List.map_nil, List.head?_cons, Option.map_some']
    rw [if_neg (by rw [farRegion_influence_zero]; norm_num)]
    rfl
  · unfold integrateRegion
    dsimp only
    have hmass : (updatePressState farState).mass = 1.0 := rfl
    have hmaxD : (updatePressState farState).maxDisplacement = 25 := rfl
    have hposT : (updatePressState farState).posThreshold = 0.3 := rfl
    have hvelT : (updatePressState farState).velThreshold = 0.05 := rfl
    rw [hmass, hmaxD, hposT, hvelT]
    unfold farRegion
    dsimp only
    rw [show (-(2/25 : ℝ) * 5 + -(23/25) * 0 + 0) / 1.0 = -(2/5 : ℝ) by norm_num]
    rw [show (5 : ℝ) + (0 + -(2/5)) = 23/5 by norm_num]
    rw [show clamp (23/5) (-25) 25 = 23/5 by
      unfold clamp
      rw [min_eq_right (by norm_num), max_eq_right (by norm_num)]]
    rw [if_neg ?_]
    · rintro ⟨h1, -⟩
      rw [abs_of_nonneg (by norm_num : (0:ℝ) ≤ 23/5)] at h1
      norm_num at h1

theorem clamp_zero (M : ℝ) (hM : 0 ≤ M) : clamp 0 (-M) M = 0 := by
  unfold clamp
  rw [min_eq_right hM, max_eq_right (by linarith)]

theorem integrateRegion_zero (s : EngineState) (a : Vec2) (r : Region)
    (hM : 0 ≤ s.maxDisplacement)
    (hr : r.position = ⟨0, 0⟩ ∧ r.velocity = ⟨0, 0⟩) (hax : a.x = 0) (hay : a.y = 0) :
    (integrateRegion s a r).position = ⟨0, 0⟩ ∧ (integrateRegion s a r).velocity = ⟨0, 0⟩ := by
  obtain ⟨hp, hv⟩ := hr
  unfold integrateRegion
  simp [hp, hv, hax, hay, clamp_zero _ hM]

theorem newHistory_zero (s : EngineState) (fx fy : ℝ) (pid : Option String)
    (hfx : fx = 0) (hfy : fy = 0) (hh : ∀ e ∈ s.forceHistory, e.x = 0 ∧ e.y = 0) :
    ∀ e ∈ newHistory s fx fy pid, e.x = 0 ∧ e.y = 0 := by
  intro e he
  simp only [newHistory] at he
  have hcons : ∀ q ∈ (⟨fx, fy, pid⟩ : ForceEntry) :: s.forceHistory, q.x = 0 ∧ q.y = 0 := by
    intro q hq
    rcases List.mem_cons.1 hq with rfl | hq'
    · exact ⟨hfx, hfy⟩
    · exact hh q hq'
  split_ifs at he with hlen
  · exact hcons e ((List.dropLast_sublist _).subset he)
  · exact hcons e he

theorem delayedForceFor_zero (hist : List ForceEntry) (r : Region)
    (hh : ∀ e ∈ hist, e.x = 0 ∧ e.y = 0) :
    (delayedForceFor hist r).x = 0 ∧ (delayedForceFor hist r).y = 0 := by
  unfold delayedForceFor
  rw [List.getD_eq_getElem?_getD]
  cases hx : hist[min r.delayFrames (hist.length - 1)]? with
  | none => simp [hx]
  | some e =>
      simp only [Option.getD_some]
      exact hh e (List.getElem?_mem hx)

theorem appliedForceFor_zero (i : ℕ) (e : ForceEntry) (hx : e.x = 0) (hy : e.y = 0) :
    (appliedForceFor i e).x = 0 ∧ (appliedForceFor i e).y = 0 := by
  unfold appliedForceFor
  split_ifs <;> simp [hx, hy]

theorem updateRegionsFrom_zero (s : EngineState) (hist : List ForceEntry)
    (hM : 0 ≤ s.maxDisplacement) (hh : ∀ e ∈ hist, e.x = 0 ∧ e.y = 0) :
    ∀ (i : ℕ) (rs : List Region), (∀ r ∈ rs, r.position = ⟨0, 0⟩ ∧ r.velocity = ⟨0, 0⟩) →
      ∀ r' ∈ updateRegionsFrom s hist i rs, r'.position = ⟨0, 0⟩ ∧ r'.velocity = ⟨0, 0⟩ := by
  intro i rs
  induction rs generalizing i with
  | nil => intro _ r' h; simp [updateRegionsFrom] at h
  | cons r rest ih =>
      intro hz r' h
      simp only [updateRegionsFrom] at h
      rcases List.mem_cons.1 h with rfl | h'
      · have hd := delayedForceFor_zero hist r hh
        have ha := appliedForceFor_zero i _ hd.1 hd.2
        exact integrateRegion_zero s _ r hM (hz r (by simp)) ha.1 ha.2
      · exact ih (i + 1) (fun q hq => hz q (by simp [hq])) r' h'

theorem updateState_zeroInv (s : EngineState) (pid : Option String) (h : zeroInv s) :
    zeroInv (updateState s ⟨0, 0⟩ pid) := by
  obtain ⟨hreg, hhist, hpress, hM⟩ := h
  have hnewhist : ∀ e ∈ newHistory (updatePressState s) ((0:ℝ) * s.sensitivity)
      ((0:ℝ) * s.sensitivity) pid, e.x = 0 ∧ e.y = 0 :=
    newHistory_zero _ _ _ pid (zero_mul _) (zero_mul _) (by simpa using hhist)
  refine ⟨?_, ?_, ?_, hM⟩
  · rw [updateState_regions]
    exact updateRegionsFrom_zero (updatePressState s) _ (by simpa using hM) hnewhist 0
      s.regions hreg
  · exact hnewhist
  · rw [updateState_pressPoints, updatePressState_pressPoints, hpress]
    rfl

theorem stepZeroN_zeroInv (s : EngineState) (pids : ℕ → Option String) (h : zeroInv s) :
    ∀ N, zeroInv (stepZeroN s pids N) := by
  intro N
  induction N with
  | zero => exact h
  | succ n ih => exact updateState_zeroInv _ (pids n) ih

theorem reset_zeroInv (s : EngineState) (hpress : s.pressPoints = [])
    (hM : 0 ≤ s.maxDisplacement) : zeroInv (reset s) := by
  refine ⟨?_, ?_, hpress, hM⟩
  · intro r hr
    rcases List.mem_map.1 hr with ⟨q, -, rfl⟩
    exact ⟨rfl, rfl⟩
  · intro e he
    simp [reset] at he

theorem blend_foldl_eq (px py : ℝ) :
    ∀ (rs : List Region), (∀ r ∈ rs, r.position = ⟨0, 0⟩) → ∀ (acc : ℝ × ℝ × ℝ),
      ((rs.foldl (fun (acc : ℝ × ℝ × ℝ) r =>
          let influence := calculateRegionInfluence px py r
          if influence > 0.001 then
            (acc.1 + r.position.x * influence, acc.2.1 + r.position.y * influence,
             acc.2.2 + influence)
          else acc) acc).1 = acc.1 ∧
       (rs.foldl (fun (acc : ℝ × ℝ × ℝ) r =>
          let influence := calculateRegionInfluence px py r
          if influence > 0.001 then
            (acc.1 + r.position.x * influence, acc.2.1 + r.position.y * influence,
             acc.2.2 + influence)
          else acc) acc).2.1 = acc.2.1) := by
  intro rs
  induction rs with
  | nil => intro _ acc; exact ⟨rfl, rfl⟩
  | cons r rest ih =>
      intro hz acc
      rw [List.foldl_cons]
      have hpos : r.position = ⟨0, 0⟩ := hz r (by simp)
      have hstep : (if calculateRegionInfluence px py r > 0.001 then
          (acc.1 + r.position.x * calculateRegionInfluence px py r,
           acc.2.1 + r.position.y * calculateRegionInfluence px py r,
           acc.2.2 + calculateRegionInfluence px py r)
        else acc).1 = acc.1 ∧
        (if calculateRegionInfluence px py r > 0.001 then
          (acc.1 + r.position.x * calculateRegionInfluence px py r,
           acc.2.1 + r.position.y * calculateRegionInfluence px py r,
           acc.2.2 + calculateRegionInfluence px py r)
        else acc).2.1 = acc.2.1 := by
        split_ifs <;> simp [hpos]
      have hrec := ih (fun q hq => hz q (by simp [hq]))
        (if calculateRegionInfluence px py r > 0.001 then
          (acc.1 + r.position.x * calculateRegionInfluence px py r,
           acc.2.1 + r.position.y * calculateRegionInfluence px py r,
           acc.2.2 + calculateRegionInfluence px py r)
        else acc)
      exact ⟨hrec.1.trans hstep.1, hrec.2.trans hstep.2⟩

theorem sampleAt_zero (s : EngineState) (v : Vertex) (h : zeroInv s) :
    (sampleAt s v).dx = 0 ∧ (sampleAt s v).dy = 0 := by
  obtain ⟨hreg, -, hpress, -⟩ := h
  unfold sampleAt
  rw [hpress]
  obtain ⟨h1, h2⟩ := blend_foldl_eq v.baseX v.baseY s.regions
    (fun r hr => (hreg r hr).1) (0, 0, 0)
  dsimp only
  rw [List.foldl_nil, h1, h2]
  constructor
  · rw [if_pos (by rw [abs_zero]; norm_num)]
  · rw [if_pos (by rw [abs_zero]; norm_num)]

theorem calcVD_zero (s : EngineState) (h : zeroInv s) :
    ∀ samp ∈ calculateVertexDisplacements s, samp.dx = 0 ∧ samp.dy = 0 := by
  intro samp hs
  rcases List.mem_map.1 hs with ⟨v, -, rfl⟩
  exact sampleAt_zero s v h

/-- C7: `reset` zeroes every region's position and velocity and clears the
force history while keeping the region list itself (same length, same boxes
and per-region constants); and for every N, `reset` followed by N zero-force
updates (with no active press points) leaves every region's position and
velocity at exactly (0, 0) and yields displacement samples with
`dx = dy = 0`, identical to the initial all-zero state. -/
theorem reset_zero_c7 (s : EngineState) (hpress : s.pressPoints = [])
    (hM : 0 ≤ s.maxDisplacement) (pids : ℕ → Option String) (N : ℕ) :
    (reset s).regions =
      s.regions.map (fun r => { r with position := ⟨0, 0⟩, velocity := ⟨0, 0⟩ }) ∧
    (reset s).forceHistory = [] ∧
    (∀ r ∈ (stepZeroN (reset s) pids N).regions,
      r.position = ⟨0, 0⟩ ∧ r.velocity = ⟨0, 0⟩) ∧
    (∀ samp ∈ calculateVertexDisplacements (stepZeroN (reset s) pids N),
      samp.dx = 0 ∧ samp.dy = 0) := by
  have hz := stepZeroN_zeroInv (reset s) pids (reset_zeroInv s hpress hM) N
  exact ⟨rfl, rfl, hz.1, calcVD_zero _ hz⟩

/-- Witness for C7: the one-region engine `farState` (whose region starts at
the displaced position (5, 5)), reset and stepped twice with zero force. -/
theorem reset_zero_c7_witness :
    (farState.pressPoints = [] ∧ (0 : ℝ) ≤ farState.maxDisplacement) ∧
    (∀ r ∈ (stepZeroN (reset farState) (fun _ => none) 2).regions,
      r.position = ⟨0, 0⟩ ∧ r.velocity = ⟨0, 0⟩) ∧
    (∀ samp ∈ calculateVertexDisplacements (stepZeroN (reset farState) (fun _ => none) 2),
      samp.dx = 0 ∧ samp.dy = 0) :=
  ⟨⟨rfl, by norm_num [farState, initialState]⟩,
    (reset_zero_c7 farState rfl (by norm_num [farState, initialState])
      (fun _ => none) 2).2.2.1,
    (reset_zero_c7 farState rfl (by norm_num [farState, initialState])
      (fun _ => none) 2).2.2.2⟩

/-- C8: the renderer does skip a source triangle whose affine determinant is
below 0.001 in absolute value (first conjunct, shown at a fully degenerate
source triangle); but zero-size regions are NOT detected during influence
computation — in `degenerateState` (one zero-width region whose center line
passes through the vertex at (0, 0) and one active press point there) the
influence is NaN and propagates through the press-point aggregation into
the vertex's `dy` displacement sample. -/
theorem degenerate_geometry_c8 :
    drawTexturedTriangle 0 0 0 0 0 0 1 2 3 4 5 6 = none ∧
    (calculateVertexDisplacementsF degenerateState)[0]? =
      some ⟨0, 0, RF.fin 0, RF.nan, RF.fin 0⟩ := by
  constructor
  · unfold drawTexturedTriangle
    rw [if_pos (by norm_num)]
  · have hv : (degenerateState.vertices)[0]? = some ⟨0, 0, 0, 0⟩ := by
      show (initVertices 5 5)[0]? = some ⟨0, 0, 0, 0⟩
      unfold initVertices
      rw [show List.range 6 = [0, 1, 2, 3, 4, 5] from rfl]
      rw [List.flatMap_cons]
      rw [List.getElem?_append_left (by simp)]
      simp
    rw [show calculateVertexDisplacementsF degenerateState =
        degenerateState.vertices.map (sampleAtF degenerateState) from rfl,
      List.getElem?_map, hv, Option.map_some']
    congr 1
    norm_num [sampleAtF, pressContributionF, calculateRegionInfluenceF, degenerateState,
      initialState, RF.add, RF.sub, RF.mul, RF.div, RF.sqrt, RF.exp, RF.neg, RF.abs,
      RF.rfMax, RF.rfMin, RF.lt, Real.sqrt_zero, Real.exp_zero]

end Nanoprin
